import Mathlib

/-!
# Package `fetcher` of ms-nikkei: embedding and verification

Shallow embedding of `internal/fetcher/article.go`; of `internal/fetcher/db.go` the embedding
keeps the outcome of `load()`, which is an argument of `Get` and `Search`.

Conventions of the embedding.

* A Go `string` is modelled by its sequence of code points (`Str`); the texts the package
  handles (JSON-decoded fields, rendered markup, URLs) are UTF-8 text.
* A Go result `(v, err)` is a pair of options, `none` standing for `nil`.
* A run-time panic (nil dereference) is the `Except.error` branch of `Except Panic`.
* A loaded corpus is a slice of pointers, `List (Option Article)`: `load()` yields a nil
  entry for a JSON `null`, and reading a field of a nil entry is a panic.
* The readings of the clock (`time.Now()`, `timestamppb.Now()`) are arguments, in the order
  the calls are made.
* Code outside the package (standard library, with the calendar of `time.Local`, `exhtml`,
  `gears`, site configuration) is collected in the record `Lib`; every general theorem holds for every `Lib`. Regular
  expressions, the replacers and the string functions of the package are modelled in full.
-/

namespace Fetcher

/-! ## Strings -/

/-- Go `string`, as a sequence of code points. -/
abbrev Str := List Char

/-- Go `strings.HasPrefix`. -/
def HasPrefix (s pre : Str) : Bool := pre.isPrefixOf s

/-- Go `strings.Contains`. -/
def Contains : Str → Str → Bool
  | [], sub => HasPrefix [] sub
  | c :: s, sub => HasPrefix (c :: s) sub || Contains s sub

/-- Go `unicode.IsSpace` (the White_Space property). -/
def isSpace (c : Char) : Bool :=
  let n := c.toNat
  (9 ≤ n && n ≤ 13) || n == 32 || n == 0x85 || n == 0xA0 || n == 0x1680 ||
  (0x2000 ≤ n && n ≤ 0x200a) || n == 0x2028 || n == 0x2029 || n == 0x202f ||
  n == 0x205f || n == 0x3000

/-- Go `strings.TrimSpace`: leading and trailing white space removed. -/
def TrimSpace (s : Str) : Str :=
  ((s.dropWhile isSpace).reverse.dropWhile isSpace).reverse

/-- A code point below `utf8.RuneSelf`. -/
def isASCII (c : Char) : Bool := c.toNat < 128

/-- The byte loop of `strings.ToLower` for ASCII-only input: `c += 'a' - 'A'` on `A`..`Z`. -/
def asciiLower (c : Char) : Char :=
  if 65 ≤ c.toNat ∧ c.toNat ≤ 90 then Char.ofNat (c.toNat + 32) else c

/-- Go `strings.ToLower`; `tbl` is the case table `unicode.ToLower`, consulted only when the
text has a code point outside ASCII (`strings.Map(unicode.ToLower, s)`). -/
def ToLower (tbl : Char → Char) (s : Str) : Str :=
  if s.all isASCII then
    if s.any (fun c => 65 ≤ c.toNat ∧ c.toNat ≤ 90) then s.map asciiLower else s
  else s.map tbl

/-- The first element of Go `strings.Split(s, sep)` for a non-empty `sep`: the text before the
first occurrence of `sep`, the whole text when there is none. -/
def splitHead (sep : Str) : Str → Str
  | [] => []
  | c :: s => if HasPrefix (c :: s) sep then [] else c :: splitHead sep s

/-- The lookup of the generic `strings.Replacer`: the first pair, in argument order, whose old
string starts the text. -/
def replacerLookup : List (Str × Str) → Str → Option (Str × Str)
  | [], _ => none
  | (old, new) :: ps, s => if HasPrefix s old then some (old, new) else replacerLookup ps s

/-- The scan of `strings.Replacer.Replace` for non-empty old strings; `skip` counts the code
points of a matched old string that are still to be passed over. -/
def replacerScan (ps : List (Str × Str)) : Str → Nat → Str
  | [], _ => []
  | _ :: s, skip + 1 => replacerScan ps s skip
  | c :: s, 0 =>
    match replacerLookup ps (c :: s) with
    | some (old, new) => new ++ replacerScan ps s (old.length - 1)
    | none => c :: replacerScan ps s 0

/-- Go `strings.NewReplacer(oldnew...).Replace(s)`; replacements are made in the order they
appear in the text, without overlap, old strings compared in argument order. -/
def Replace (ps : List (Str × Str)) (s : Str) : Str := replacerScan ps s 0

/-! ## Errors, time, URLs, document trees -/

/-- Go `error` values that the package builds or passes on. -/
inductive GoError where
  /-- The package variable `ErrTimeOverDays`. -/
  | ErrTimeOverDays
  /-- An error made by `fmt.Errorf` or `errors.Errorf`, with its text. -/
  | errorf (text : Str)
  /-- The result of `errors.WithMessage(cause, msg)`. -/
  | withMessage (cause : GoError) (msg : Str)
  /-- An error returned by code outside the package, with its text. -/
  | lib (text : Str)
deriving DecidableEq, Repr

/-- Method `Error()`. -/
def GoError.Error : GoError → Str
  | .ErrTimeOverDays => "article update time out of range".toList
  | .errorf t => t
  | .withMessage c m => m ++ ": ".toList ++ c.Error
  | .lib t => t

deriving instance DecidableEq for Except

/-- A run-time panic. -/
inductive Panic where
  /-- A nil pointer is dereferenced. -/
  | nilDeref
deriving DecidableEq, Repr

/-- An instant (`time.Time`), in nanoseconds since the Unix epoch. -/
abbrev Time := Int

/-- One second, as a `time.Duration`. -/
def second : Int := 1000000000

/-- The struct `timestamppb.Timestamp`. -/
structure Timestamp where
  Seconds : Int
  Nanos : Int
deriving DecidableEq, Repr

/-- The constructor `timestamppb.New`. -/
def Timestamp.New (t : Time) : Timestamp := ⟨t / second, t % second⟩

/-- The method `AsTime`; a nil timestamp reads as zero seconds and zero nanoseconds. -/
def Timestamp.AsTime : Option Timestamp → Time
  | none => 0
  | some ts => ts.Seconds * second + ts.Nanos

/-- An instant together with the offset, in seconds east of UTC, of the zone it is shown in. -/
structure ZonedTime where
  instant : Time
  offset : Int
deriving DecidableEq, Repr

/-- A parsed `url.URL`, reduced to what the package reads of it: the field `Path` and the
result of the method `String()`. -/
structure URL where
  Path : Str
  String : Str
deriving DecidableEq, Repr

/-- The constants of `html.NodeType`. -/
inductive NodeType where
  | ErrorNode | TextNode | DocumentNode | ElementNode | CommentNode | DoctypeNode
deriving DecidableEq, Repr

/-- A node of `golang.org/x/net/html` with its children in order; `FirstChild` is the head of
`children`. -/
inductive Node where
  | mk (type : NodeType) (Data : Str) (Attr : List (Str × Str)) (children : List Node)

mutual
/-- Equality of nodes is decidable. -/
def Node.decEq : (a b : Node) → Decidable (a = b)
  | .mk t d a cs, .mk t2 d2 a2 cs2 =>
    if h1 : t = t2 then
      if h2 : d = d2 then
        if h3 : a = a2 then
          match Node.decEqList cs cs2 with
          | isTrue h4 => isTrue (by rw [h1, h2, h3, h4])
          | isFalse h4 => isFalse (fun h => h4 (Node.mk.inj h).2.2.2)
        else isFalse (fun h => h3 (Node.mk.inj h).2.2.1)
      else isFalse (fun h => h2 (Node.mk.inj h).2.1)
    else isFalse (fun h => h1 (Node.mk.inj h).1)
/-- Equality of lists of nodes is decidable. -/
def Node.decEqList : (a b : List Node) → Decidable (a = b)
  | [], [] => isTrue rfl
  | [], _ :: _ => isFalse (fun h => List.noConfusion h)
  | _ :: _, [] => isFalse (fun h => List.noConfusion h)
  | n :: ns, m :: ms =>
    match Node.decEq n m with
    | isTrue h1 =>
      match Node.decEqList ns ms with
      | isTrue h2 => isTrue (by rw [h1, h2])
      | isFalse h2 => isFalse (fun h => h2 (List.cons.inj h).2)
    | isFalse h1 => isFalse (fun h => h1 (List.cons.inj h).1)
end

instance : DecidableEq Node := Node.decEq

/-- Field `Data`. -/
def Node.Data : Node → Str
  | .mk _ d _ _ => d

/-- Field `FirstChild`, `none` for nil. -/
def Node.FirstChild : Node → Option Node
  | .mk _ _ _ cs => cs.head?

/-- The struct `Article`. -/
structure Article where
  Id : Str
  Title : Str
  Content : Str
  WebsiteId : Str
  WebsiteDomain : Str
  WebsiteTitle : Str
  UpdateTime : Option Timestamp
  U : Option URL
  raw : Option (List Nat)
  doc : Option Node
deriving DecidableEq

/-- Code outside the package: site configuration, standard library, `exhtml`, `gears`. -/
structure Lib where
  /-- The configured `configs.Data.MS["nikkei"].Title`. -/
  Title : Str
  /-- The configured `configs.Data.MS["nikkei"].Domain`. -/
  Domain : Str
  /-- The text `fmt.Sprintf("%x", md5.Sum([]byte(s)))`. -/
  md5hex : Str → Str
  /-- The case table `unicode.ToLower`. -/
  unicodeLower : Char → Char
  /-- The parser `url.Parse`. -/
  urlParse : Str → Except GoError URL
  /-- The fetch `exhtml.GetRawAndDoc(u, 1*time.Minute)`: its three results `raw`, `doc`,
  `err`. -/
  GetRawAndDoc : URL → Option (List Nat) × Option Node × Option GoError
  /-- The traversal `exhtml.ElementsByTag(doc, tag)`. -/
  ElementsByTag : Option Node → Str → List Node
  /-- The traversal `exhtml.ElementsByTagAndId(doc, tag, id)`. -/
  ElementsByTagAndId : Node → Str → Str → List Node
  /-- The serialiser `html.Render`, with the text it writes. -/
  Render : Node → Except GoError Str
  /-- The sanitiser `gears.ChangeIllegalChar`. -/
  ChangeIllegalChar : Str → Str
  /-- The decoder `url.QueryUnescape`. -/
  QueryUnescape : Str → Except GoError Str
  /-- The parser `time.Parse("2006-01-02-15-04-05", s)`. -/
  parseTime : Str → Except GoError Time
  /-- The formatter `Format(time.RFC3339)`. -/
  formatRFC3339 : ZonedTime → Str
  /-- The method `t.AddDate(years, months, days)` on a result of `time.Now()`: a step on the
  calendar of the location `time.Local`. -/
  AddDate : Time → Int → Int → Int → Time

/-! ## Corpus queries (`Get`, `Search`) -/

/-- The loop of `Get` over the loaded articles; the test `a.Id == id` dereferences the entry,
which panics on a nil entry. -/
def getLoop (L : Lib) (id : Str) :
    List (Option Article) → Except Panic (Option Article × Option GoError)
  | [] => .ok (none,
      some (.errorf ("[".toList ++ L.Title ++ "] no article with id: ".toList ++ id)))
  | none :: _ => .error .nilDeref
  | some a :: as => if a.Id = id then .ok (some a, none) else getLoop L id as

/-- `Article.Get`; `load` is the outcome of `load()`. -/
def Get (L : Lib) (load : Except GoError (List (Option Article))) (id : Str) :
    Except Panic (Option Article × Option GoError) :=
  match load with
  | .error err => .ok (none, some err)
  | .ok as => getLoop L id as

/-- The `switch` of `Search` for one article and one keyword: does a case append the article? -/
def searchCase (L : Lib) (a : Article) (v₀ : Str) : Bool :=
  let v := ToLower L.unicodeLower (TrimSpace v₀)
  if a.Id = v then true
  else if a.WebsiteId = v then true
  else if Contains (ToLower L.unicodeLower a.Title) v then true
  else if Contains (ToLower L.unicodeLower a.Content) v then true
  else if Contains (ToLower L.unicodeLower a.WebsiteDomain) v then true
  else if Contains (ToLower L.unicodeLower a.WebsiteTitle) v then true
  else false

/-- The inner loop of `Search`, over the keywords, for one entry `a` of the corpus; `as2` is
the slice built so far. The first case of the `switch` reads `a.Id`, which panics on a nil
entry. -/
def searchKeywords (L : Lib) (a : Option Article) :
    List Str → List (Option Article) → Except Panic (List (Option Article))
  | [], as2 => .ok as2
  | v :: vs, as2 =>
    match a with
    | none => .error .nilDeref
    | some art => searchKeywords L a vs (if searchCase L art v then as2 ++ [a] else as2)

/-- The outer loop of `Search`, over the entries of the corpus. -/
def searchLoop (L : Lib) (keyword : List Str) :
    List (Option Article) → List (Option Article) → Except Panic (List (Option Article))
  | [], as2 => .ok as2
  | a :: as, as2 =>
    match searchKeywords L a keyword as2 with
    | .error p => .error p
    | .ok as2 => searchLoop L keyword as as2

/-- `Article.Search`; `load` is the outcome of `load()`. -/
def Search (L : Lib) (load : Except GoError (List (Option Article))) (keyword : List Str) :
    Except Panic (Option (List (Option Article)) × Option GoError) :=
  match load with
  | .error err => .ok (none, some err)
  | .ok as =>
    match searchLoop L keyword as [] with
    | .error p => .error p
    | .ok as2 => .ok (some as2, none)

/-- The matching rule in the words of the specification: the keyword equals the id or the
site id exactly, or is a case-insensitive substring of title, content, site domain or site
title. -/
def specMatches (L : Lib) (a : Article) (k : Str) : Bool :=
  a.Id = k || a.WebsiteId = k ||
  Contains (ToLower L.unicodeLower a.Title) (ToLower L.unicodeLower k) ||
  Contains (ToLower L.unicodeLower a.Content) (ToLower L.unicodeLower k) ||
  Contains (ToLower L.unicodeLower a.WebsiteDomain) (ToLower L.unicodeLower k) ||
  Contains (ToLower L.unicodeLower a.WebsiteTitle) (ToLower L.unicodeLower k)

/-! ## Regular expressions

The patterns of the package are sequences of single code point classes, lazy and greedy
repetitions of such classes, and capture groups. Go's `regexp` returns the match a
backtracking search finds first (leftmost-first), which is what `Inst.run` computes. -/

/-- One element of a compiled pattern. -/
inductive Inst where
  /-- One code point of a class: a literal, `.`, `[^^]`, `\d`. -/
  | rune (p : Char → Bool)
  /-- The lazy repetition `x*?` of a class. -/
  | lazyStar (p : Char → Bool)
  /-- The lazy repetition `x+?` of a class. -/
  | lazyPlus (p : Char → Bool)
  /-- The greedy repetition `x+` of a class. -/
  | plus (p : Char → Bool)
  /-- The opening bracket of capture group `i`. -/
  | capOpen (i : Nat)
  /-- The closing bracket of capture group `i`. -/
  | capClose (i : Nat)

/-- The class of a literal code point. -/
def isLit (c : Char) : Char → Bool := fun x => x == c

/-- The class `.` without flag `s`: any code point but the newline. -/
def isDot : Char → Bool := fun x => x != '\n'

/-- The class `[^^]`: any code point but the caret, the newline included. -/
def isNotCaret : Char → Bool := fun x => x != '^'

/-- The class `\d`: an ASCII digit. -/
def isDigit : Char → Bool := fun x => 48 ≤ x.toNat && x.toNat ≤ 57

/-- A literal text as a pattern. -/
def lits (s : String) : List Inst := s.toList.map (fun c => Inst.rune (isLit c))

/-- The positions a match has recorded: the opening positions of the groups entered and the
spans `(group, start, end)` of the groups closed, counted from the start of the match. -/
structure Caps where
  starts : List (Nat × Nat)
  spans : List (Nat × Nat × Nat)

/-- Lazy repetition: the rest of the pattern is tried before another code point is taken. -/
def lazyLoop {R : Type} (p : Char → Bool) (k : Str → Nat → Option R) : Str → Nat → Option R
  | [], pos => k [] pos
  | c :: t, pos =>
    match k (c :: t) pos with
    | some r => some r
    | none => if p c then lazyLoop p k t (pos + 1) else none

/-- Greedy repetition: another code point is taken before the rest of the pattern is tried. -/
def greedyLoop {R : Type} (p : Char → Bool) (k : Str → Nat → Option R) : Str → Nat → Option R
  | [], pos => k [] pos
  | c :: t, pos =>
    if p c then
      match greedyLoop p k t (pos + 1) with
      | some r => some r
      | none => k (c :: t) pos
    else k (c :: t) pos

/-- The match of a pattern at the start of a text, by backtracking in priority order: the end
position and the recorded groups. -/
def Inst.run : List Inst → Str → Nat → Caps → Option (Nat × Caps)
  | [], _, pos, caps => some (pos, caps)
  | .rune p :: is, s, pos, caps =>
    match s with
    | [] => none
    | c :: t => if p c then Inst.run is t (pos + 1) caps else none
  | .lazyStar p :: is, s, pos, caps =>
    lazyLoop p (fun s1 pos1 => Inst.run is s1 pos1 caps) s pos
  | .lazyPlus p :: is, s, pos, caps =>
    match s with
    | [] => none
    | c :: t =>
      if p c then lazyLoop p (fun s1 pos1 => Inst.run is s1 pos1 caps) t (pos + 1) else none
  | .plus p :: is, s, pos, caps =>
    match s with
    | [] => none
    | c :: t =>
      if p c then greedyLoop p (fun s1 pos1 => Inst.run is s1 pos1 caps) t (pos + 1) else none
  | .capOpen i :: is, s, pos, caps =>
    Inst.run is s pos { caps with starts := (i, pos) :: caps.starts }
  | .capClose i :: is, s, pos, caps =>
    Inst.run is s pos
      { caps with spans := (i, ((caps.starts.lookup i).getD 0), pos) :: caps.spans }

/-- The match of a pattern at the start of a text. -/
def matchHere (prog : List Inst) (s : Str) : Option (Nat × Caps) :=
  Inst.run prog s 0 ⟨[], []⟩

/-- The text of group `i` of a match that starts the text `s`; empty for a group that did not
take part. -/
def groupText (s : Str) (caps : Caps) (i : Nat) : Str :=
  match caps.spans.lookup i with
  | some (st, en) => (s.drop st).take (en - st)
  | none => []

/-- A piece of a replacement template: literal text, or a reference `${i}` or `${name}` to
a group, given by the number of the group. -/
inductive Piece where
  | text (s : String)
  | group (i : Nat)

/-- The expansion of a template (`Regexp.Expand`) for a match that starts the text `s`. -/
def expand (tmpl : List Piece) (s : Str) (caps : Caps) : Str :=
  tmpl.foldr (fun pc acc =>
    match pc with
    | .text t => t.toList ++ acc
    | .group i => groupText s caps i ++ acc) []

/-- The scan of `ReplaceAllString` for a pattern that matches no empty text: at a position
where the pattern matches, the expansion is written and the match passed over (`skip` counts
the code points of it still to pass); elsewhere the code point is copied. -/
def replaceAllScan (prog : List Inst) (tmpl : List Piece) : Str → Nat → Str
  | [], _ => []
  | _ :: s, skip + 1 => replaceAllScan prog tmpl s skip
  | c :: s, 0 =>
    match matchHere prog (c :: s) with
    | some (n + 1, caps) => expand tmpl (c :: s) caps ++ replaceAllScan prog tmpl s n
    | _ => c :: replaceAllScan prog tmpl s 0

/-- The method `ReplaceAllString(src, repl)`. -/
def ReplaceAllString (prog : List Inst) (src : Str) (tmpl : List Piece) : Str :=
  replaceAllScan prog tmpl src 0

/-- The method `FindStringSubmatch` for a pattern with `groups` groups: the leftmost match
and its groups, the empty slice when there is no match. -/
def FindStringSubmatch (prog : List Inst) (groups : Nat) : Str → List Str
  | [] =>
    match matchHere prog [] with
    | some (n, caps) => ([] : Str).take n :: (List.range groups).map
        (fun i => groupText [] caps (i + 1))
    | none => []
  | c :: s =>
    match matchHere prog (c :: s) with
    | some (n, caps) => (c :: s).take n :: (List.range groups).map
        (fun i => groupText (c :: s) caps (i + 1))
    | none => FindStringSubmatch prog groups s

/-! ## The pipeline (`article.go`) -/

/-- The constructor `NewArticle`. -/
def NewArticle (L : Lib) : Article :=
  { Id := [], Title := [], Content := [], WebsiteId := L.md5hex L.Domain,
    WebsiteDomain := L.Domain, WebsiteTitle := L.Title,
    UpdateTime := none, U := none, raw := none, doc := none }

/-- The call `a.U.String()`; a nil `U` is dereferenced by the method. -/
def urlString (a : Article) : Except Panic Str :=
  match a.U with
  | none => .error .nilDeref
  | some u => .ok u.String

/-- The pair of old and new text of the replacer of `fetchTitle`. -/
def titleReplacer : List (Str × Str) := [("  ???????????????".toList, [])]

/-- The method `fetchTitle`. -/
def fetchTitle (L : Lib) (a : Article) : Except Panic (Str × Option GoError) :=
  match L.ElementsByTag a.doc "title".toList with
  | [] => do
    let u ← urlString a
    pure ([], some (.errorf
      ("[".toList ++ L.Title ++ "] there is no element <title>: ".toList ++ u)))
  | n0 :: _ =>
    match n0.FirstChild with
    | none => .error .nilDeref
    | some child =>
      let title := child.Data
      let title := TrimSpace (Replace titleReplacer title)
      pure (L.ChangeIllegalChar title, none)

/-- The pattern `.+?/\d+-(.+?).html\?.+` of `fetchUpdateTime`. -/
def updateTimeRe : List Inst :=
  [.lazyPlus isDot] ++ lits "/" ++ [.plus isDigit] ++ lits "-" ++
  [.capOpen 1, .lazyPlus isDot, .capClose 1, .rune isDot] ++ lits "html?" ++ [.plus isDot]

/-- The method `fetchUpdateTime`; `now₀` and `now₁` are the results of its two calls of
`time.Now()`, in order. -/
def fetchUpdateTime (L : Lib) (now₀ now₁ : Time) (a : Article) :
    Except Panic (Option Timestamp × Option GoError) :=
  match a.raw with
  | none => do
    let u ← urlString a
    pure (none, some (.errorf
      ("[".toList ++ L.Title ++ "] fetchUpdateTime: raw is nil: ".toList ++ u)))
  | some _ => do
    let u ← urlString a
    let rs := FindStringSubmatch updateTimeRe 1 u
    let parsed : Except GoError Time :=
      if rs.length ≠ 0 then L.parseTime (rs.getD 1 []) else .ok now₀
    match parsed with
    | .error err =>
      pure (none, some (.withMessage err "no matched meta contains published_time".toList))
    | .ok t =>
      if t < L.AddDate now₁ 0 0 (-3) then
        pure (some (Timestamp.New t), some .ErrTimeOverDays)
      else pure (some (Timestamp.New t), none)

/-- The function `shanghai`: the same instant, shown at the fixed offset of 8 hours. -/
def shanghai (t : Time) : ZonedTime := ⟨t, 8 * 60 * 60⟩

/-- The regular expressions of `fetchContent` with their replacement templates, in the order
of the code. -/
def rewriteRules : List (List Inst × List Piece) :=
  [ (lits "<div" ++ [.lazyStar isDot] ++ lits ">" ++
      [.capOpen 1, .lazyStar isNotCaret, .capClose 1] ++ lits "</div>", [.group 1]),
    (lits "<table" ++ [.lazyStar isDot] ++ lits ">" ++
      [.capOpen 1, .lazyStar isNotCaret, .capClose 1] ++ lits "</table>", []),
    (lits "<div" ++ [.lazyStar isDot] ++ lits ">", []),
    (lits "<p" ++ [.lazyStar isDot] ++ lits ">" ++
      [.capOpen 1, .lazyStar isDot, .capClose 1] ++ lits "</p>", [.group 1, .text "  \n"]),
    (lits "<span" ++ [.lazyStar isDot] ++ lits ">" ++
      [.capOpen 1, .lazyStar isDot, .capClose 1] ++ lits "</span>", [.group 1]),
    (lits "<h1>" ++ [.capOpen 1, .lazyStar isDot, .capClose 1] ++ lits "</h1>",
      [.text "# ", .group 1]),
    (lits "<h2>" ++ [.capOpen 1, .lazyStar isDot, .capClose 1] ++ lits "</h2>",
      [.text "## ", .group 1]),
    (lits "<h3>" ++ [.capOpen 1, .lazyStar isDot, .capClose 1] ++ lits "</h3>",
      [.text "### ", .group 1]),
    (lits "<span" ++ [.lazyStar isDot] ++ lits ">" ++
      [.capOpen 1, .lazyStar isDot, .capClose 1] ++ lits "</span>", [.group 1]),
    (lits "<em>" ++ [.capOpen 1, .lazyStar isDot, .capClose 1] ++ lits "</em>",
      [.text "*", .group 1, .text "*"]),
    (lits "<b" ++ [.lazyStar isDot] ++ lits ">" ++
      [.capOpen 1, .lazyStar isDot, .capClose 1] ++ lits "</b>",
      [.text "**", .group 1, .text "**"]),
    (lits "<strong>" ++ [.capOpen 1, .lazyStar isDot, .capClose 1] ++ lits "</strong>",
      [.text "**", .group 1, .text "**"]),
    (lits "<a " ++ [.lazyStar isDot] ++ lits "href=\"" ++
      [.capOpen 1, .lazyStar isDot, .capClose 1] ++ lits "\"" ++ [.lazyStar isDot] ++
      lits ">" ++ [.capOpen 2, .lazyStar isDot, .capClose 2] ++ lits "</a>",
      [.text "[", .group 2, .text "](", .group 1, .text ")"]),
    (lits "<img " ++ [.lazyStar isDot] ++ lits ">", []) ]

/-- The pairs of old and new text of the replacer that ends the chain of `fetchContent`. -/
def contentReplacer : List (Str × Str) :=
  [ ("???".toList, "???".toList), ("???".toList, "???".toList), ("???".toList, []),
    ("</div>".toList, []), ("\n\n".toList, "\n".toList) ]

/-- The regular expression part of the chain: each `ReplaceAllString` applied in turn. -/
def rewriteRegex (x : Str) : Str :=
  rewriteRules.foldl (fun x rule => ReplaceAllString rule.1 x rule.2) x

/-- The rewrite chain of `fetchContent`: the regular expressions, then the replacer. -/
def rewrite (x : Str) : Str := Replace contentReplacer (rewriteRegex x)

/-- The loop of `fetchContent` over the matched nodes; `body` is the value so far. -/
def contentLoop (L : Lib) (u : Except Panic Str) :
    List Node → Str → Except Panic (Str × Option GoError)
  | [], body => pure (body, none)
  | n :: ns, _ =>
    match L.Render n with
    | .error err => do
      let us ← u
      pure ([], some (.withMessage err ("node render to bytes fail: ".toList ++ us)))
    | .ok text => contentLoop L u ns (rewrite text)

/-- The method `fetchContent`. -/
def fetchContent (L : Lib) (a : Article) : Except Panic (Str × Option GoError) :=
  match a.doc with
  | none => do
    let u ← urlString a
    pure ([], some (.errorf
      ("[".toList ++ L.Title ++ "] fetchContent: doc is nil: ".toList ++ u)))
  | some doc =>
    match L.ElementsByTagAndId doc "div".toList "contentDiv".toList with
    | [] => do
      let u ← urlString a
      pure ([], some (.errorf ("no article content matched: ".toList ++ u)))
    | n :: ns => contentLoop L (urlString a) (n :: ns) []

/-- The text `webTitle` of `fmtContent`: in the format, `%s` and `%[1]s` both take the first
argument, the site title, and `%[2]s` the second, the site domain. -/
def webTitle (a : Article) : Str :=
  " @ [".toList ++ a.WebsiteTitle ++ "](/list/?v=".toList ++ a.WebsiteTitle ++
  "): [".toList ++ a.WebsiteDomain ++ "](http://".toList ++ a.WebsiteDomain ++ ")".toList

/-- The text `u` of `fmtContent`: the unescaped URL, or the URL as it is with the note. -/
def sourceText (L : Lib) (us : Str) : Str :=
  match L.QueryUnescape us with
  | .ok u => u
  | .error err => us ++ "\n\nunescape url error:\n".toList ++ err.Error

/-- The last line of the document: the marker and the link `[%s](%[1]s)`. -/
def sourceLine (L : Lib) (us : Str) : Str :=
  let x := splitHead "?tmpl=".toList (sourceText L us)
  "????????????".toList ++ "[".toList ++ x ++ "](".toList ++ x ++ ")".toList

/-- The method `fmtContent`. -/
def fmtContent (L : Lib) (a : Article) (body : Str) : Except Panic (Str × Option GoError) := do
  let title := "# ".toList ++ a.Title ++ "\n\n".toList
  let lastupdate := L.formatRFC3339 (shanghai (Timestamp.AsTime a.UpdateTime))
  let us ← urlString a
  pure (title ++ "LastUpdate: ".toList ++ lastupdate ++ webTitle a ++ "\n\n".toList ++
    "---\n".toList ++ body ++ "\n\n".toList ++ sourceLine L us, none)

/-- The method `fetchArticle`; `now₀` and `now₁` are the results of the calls of the clock,
in order (`timestamppb.Now()` on the path of the invalid header, the two calls of
`time.Now()` in `fetchUpdateTime` otherwise). -/
def fetchArticle (L : Lib) (now₀ now₁ : Time) (a : Article) (rawurl : Str) :
    Except Panic (Option Article × Option GoError) :=
  match L.urlParse rawurl with
  | .error err => pure (none, some err)
  | .ok u =>
    let a := { a with U := some u }
    match L.GetRawAndDoc u with
    | (raw, doc, some err) =>
      let a := { a with raw := raw, doc := doc }
      if Contains err.Error "invalid header".toList then do
        let a := { a with Title := u.Path }
        let a := { a with UpdateTime := some (Timestamp.New now₀) }
        let (content, err) ← fmtContent L a []
        let a := { a with Content := content }
        match err with
        | some err => pure (none, some err)
        | none => pure (some a, none)
      else pure (none, some err)
    | (raw, doc, none) => do
      let a := { a with raw := raw, doc := doc }
      let a := { a with Id := L.md5hex rawurl }
      let (title, err) ← fetchTitle L a
      let a := { a with Title := title }
      match err with
      | some err => pure (none, some err)
      | none =>
        let (t, err) ← fetchUpdateTime L now₀ now₁ a
        let a := { a with UpdateTime := t }
        match err with
        | some err => pure (none, some err)
        | none =>
          let (content, err) ← fetchContent L a
          let a := { a with Content := content }
          match err with
          | some err => pure (none, some err)
          | none =>
            let (content, err) ← fmtContent L a a.Content
            let a := { a with Content := content }
            match err with
            | some err => pure (none, some err)
            | none => pure (some a, none)

/-! ## A sample environment

A concrete `Lib` on which the pipeline can be run: MD5 as in RFC 1321, and small models of the
other collaborators that agree with them on the sample inputs used below (ASCII URLs in
canonical form, a page of plain elements and texts, a fetch that answers for three URLs, a
process whose local time is UTC). -/

/-- The UTF-8 bytes of a code point. -/
def utf8Bytes (c : Char) : List Nat :=
  let n := c.toNat
  if n < 0x80 then [n]
  else if n < 0x800 then [0xC0 + n / 64, 0x80 + n % 64]
  else if n < 0x10000 then [0xE0 + n / 4096, 0x80 + n / 64 % 64, 0x80 + n % 64]
  else [0xF0 + n / 262144, 0x80 + n / 4096 % 64, 0x80 + n / 64 % 64, 0x80 + n % 64]

/-- The conversion `[]byte(s)`. -/
def toBytes (s : Str) : List Nat := s.flatMap utf8Bytes

/-- The shift amounts of MD5 (RFC 1321). -/
def md5Shift : List Nat :=
  [7, 12, 17, 22, 7, 12, 17, 22, 7, 12, 17, 22, 7, 12, 17, 22,
   5, 9, 14, 20, 5, 9, 14, 20, 5, 9, 14, 20, 5, 9, 14, 20,
   4, 11, 16, 23, 4, 11, 16, 23, 4, 11, 16, 23, 4, 11, 16, 23,
   6, 10, 15, 21, 6, 10, 15, 21, 6, 10, 15, 21, 6, 10, 15, 21]

/-- The sine table of MD5 (RFC 1321). -/
def md5K : List Nat :=
  [0xd76aa478, 0xe8c7b756, 0x242070db, 0xc1bdceee, 0xf57c0faf, 0x4787c62a, 0xa8304613, 0xfd469501, 0x698098d8, 0x8b44f7af, 0xffff5bb1, 0x895cd7be, 0x6b901122, 0xfd987193, 0xa679438e, 0x49b40821, 0xf61e2562, 0xc040b340, 0x265e5a51, 0xe9b6c7aa, 0xd62f105d, 0x02441453, 0xd8a1e681, 0xe7d3fbc8, 0x21e1cde6, 0xc33707d6, 0xf4d50d87, 0x455a14ed, 0xa9e3e905, 0xfcefa3f8, 0x676f02d9, 0x8d2a4c8a, 0xfffa3942, 0x8771f681, 0x6d9d6122, 0xfde5380c, 0xa4beea44, 0x4bdecfa9, 0xf6bb4b60, 0xbebfbc70, 0x289b7ec6, 0xeaa127fa, 0xd4ef3085, 0x04881d05, 0xd9d4d039, 0xe6db99e5, 0x1fa27cf8, 0xc4ac5665, 0xf4292244, 0x432aff97, 0xab9423a7, 0xfc93a039, 0x655b59c3, 0x8f0ccc92, 0xffeff47d, 0x85845dd1, 0x6fa87e4f, 0xfe2ce6e0, 0xa3014314, 0x4e0811a1, 0xf7537e82, 0xbd3af235, 0x2ad7d2bb, 0xeb86d391]

/-- The modulus of 32-bit words. -/
def w32 : Nat := 4294967296

/-- Rotation of a 32-bit word to the left. -/
def rotl32 (x c : Nat) : Nat := ((x <<< c) % w32) ||| (x >>> (32 - c))

/-- Complement of a 32-bit word. -/
def not32 (x : Nat) : Nat := x ^^^ 0xffffffff

/-- The first `k` little-endian bytes of a number. -/
def leBytes : Nat → Nat → List Nat
  | 0, _ => []
  | k + 1, x => x % 256 :: leBytes k (x / 256)

/-- The number with the given little-endian bytes. -/
def leWord : List Nat → Nat
  | [] => 0
  | b :: bs => b + 256 * leWord bs

/-- The padding of MD5: a one bit, zeros up to 56 modulo 64, the bit length on 8 bytes. -/
def md5Pad (msg : List Nat) : List Nat :=
  let l := msg.length
  msg ++ [0x80] ++ List.replicate ((119 - l % 64) % 64) 0 ++ leBytes 8 (8 * l)

/-- One of the 64 operations of MD5 on the state `a + b*2^32 + c*2^64 + d*2^96`. -/
def md5Round (m : List Nat) (st : Nat) (i : Nat) : Nat :=
  let a := st % w32
  let b := st / w32 % w32
  let c := st / w32 / w32 % w32
  let d := st / w32 / w32 / w32
  let f :=
    if i < 16 then (b &&& c) ||| (not32 b &&& d)
    else if i < 32 then (d &&& b) ||| (not32 d &&& c)
    else if i < 48 then b ^^^ c ^^^ d
    else c ^^^ (b ||| not32 d)
  let g :=
    if i < 16 then i
    else if i < 32 then (5 * i + 1) % 16
    else if i < 48 then (3 * i + 5) % 16
    else (7 * i) % 16
  let x := (f + a + md5K.getD i 0 + m.getD g 0) % w32
  let b1 := (b + rotl32 x (md5Shift.getD i 0)) % w32
  d + b1 * w32 + b * w32 * w32 + c * w32 * w32 * w32

/-- The first `k` 32-bit words of a block. -/
def md5Words : Nat → List Nat → List Nat
  | 0, _ => []
  | k + 1, bs => leWord (bs.take 4) :: md5Words k (bs.drop 4)

/-- The processing of one block of 64 bytes. -/
def md5Block (st : Nat) (block : List Nat) : Nat :=
  let m := md5Words 16 block
  let r := (List.range 64).foldl (md5Round m) st
  (st % w32 + r % w32) % w32
  + (st / w32 % w32 + r / w32 % w32) % w32 * w32
  + (st / w32 / w32 % w32 + r / w32 / w32 % w32) % w32 * w32 * w32
  + (st / w32 / w32 / w32 + r / w32 / w32 / w32) % w32 * w32 * w32 * w32

/-- The processing of `k` blocks in turn. -/
def md5Blocks : Nat → Nat → List Nat → Nat
  | 0, st, _ => st
  | k + 1, st, bs => md5Blocks k (md5Block st (bs.take 64)) (bs.drop 64)

/-- The function `md5.Sum`: the 16 bytes of the digest. -/
def md5Sum (msg : List Nat) : List Nat :=
  let p := md5Pad msg
  leBytes 16 (md5Blocks (p.length / 64)
    (0x67452301 + 0xefcdab89 * w32 + 0x98badcfe * w32 * w32 + 0x10325476 * w32 * w32 * w32) p)

/-- A lower-case hexadecimal digit, as the verb `%x` writes it. -/
def hexDigit (n : Nat) : Char := if n < 10 then Char.ofNat (48 + n) else Char.ofNat (87 + n)

/-- The text `fmt.Sprintf("%x", md5.Sum([]byte(s)))`. -/
def md5hex (s : Str) : Str := (md5Sum (toBytes s)).flatMap (fun b => [hexDigit (b / 16), hexDigit (b % 16)])

/-- An excerpt of the case table `unicode.ToLower`: Latin, Greek and Cyrillic capitals. -/
def sampleLower (c : Char) : Char :=
  let n := c.toNat
  if (65 ≤ n ∧ n ≤ 90) ∨ (0xC0 ≤ n ∧ n ≤ 0xDE ∧ n ≠ 0xD7) ∨ (0x391 ≤ n ∧ n ≤ 0x3A9 ∧ n ≠ 0x3A2)
      ∨ (0x410 ≤ n ∧ n ≤ 0x42F) then Char.ofNat (n + 32)
  else if 0x400 ≤ n ∧ n ≤ 0x40F then Char.ofNat (n + 80)
  else c

/-- The text after the first occurrence of `sep`, the whole text when there is none. -/
def afterFirst (sep : Str) : Str → Str → Str
  | [], whole => whole
  | c :: s, whole => if HasPrefix (c :: s) sep then (c :: s).drop sep.length
      else afterFirst sep s whole

/-- Sample of `url.Parse` for an absolute URL in canonical form: `String()` gives the text
back, `Path` is what stands between the authority and the query; a control character is an
error. -/
def sampleUrlParse (s : Str) : Except GoError URL :=
  if s.any (fun c => c.toNat < 32 ∨ c.toNat = 127) then
    .error (.lib ("parse ".toList ++ ['"'] ++ s ++ ['"'] ++
      ": net/url: invalid control character in URL".toList))
  else
    let rest := (afterFirst "://".toList s s).dropWhile (fun c => c != '/')
    .ok ⟨rest.takeWhile (fun c => c != '?' && c != '#'), s⟩

/-- An element node. -/
def elem (tag : String) (attr : List (String × String)) (children : List Node) : Node :=
  .mk .ElementNode tag.toList (attr.map (fun kv => (kv.1.toList, kv.2.toList))) children

/-- A text node. -/
def textNode (s : String) : Node := .mk .TextNode s.toList [] []

/-- The tree of the sample page: a title and a content container with one paragraph. -/
def samplePage : Node :=
  .mk .DocumentNode [] []
    [elem "html" []
      [elem "head" [] [elem "title" [] [textNode " Markets today "]],
       elem "body" [] [elem "div" [("id", "contentDiv")] [elem "p" [] [textNode "Hello"]]]]]

/-- The tree of a page whose title element is empty: `<title></title>`. -/
def emptyTitlePage : Node :=
  .mk .DocumentNode [] []
    [elem "html" []
      [elem "head" [] [elem "title" [] []],
       elem "body" [] [elem "div" [("id", "contentDiv")] [elem "p" [] [textNode "Hello"]]]]]

/-- Sample of the fetch: the sample page for an article URL, the page with the empty title,
a transport error on an invalid header, a refused connection for every other URL. -/
def sampleGetRawAndDoc (u : URL) : Option (List Nat) × Option Node × Option GoError :=
  if u.String = "http://site/news/1234-2020-01-02-03-04-05.html?tmpl=component".toList then
    (some [60, 104, 116, 109, 108, 62], some samplePage, none)
  else if u.String = "http://site/empty.html".toList then
    (some [60, 104, 116, 109, 108, 62], some emptyTitlePage, none)
  else if u.String = "http://site/broken".toList then
    (none, none, some (.lib ("Get ".toList ++ ['"'] ++ u.String ++ ['"'] ++
      ": net/http: invalid header field value".toList)))
  else
    (none, none, some (.lib ("Get ".toList ++ ['"'] ++ u.String ++ ['"'] ++
      ": dial tcp: connection refused".toList)))

mutual
/-- Sample of `exhtml.ElementsByTag` below a node: the elements of the tag, in document
order. -/
def elementsOf (tag : Str) : Node → List Node
  | .mk ty d attr cs =>
    (if ty = .ElementNode ∧ d = tag then [Node.mk ty d attr cs] else []) ++ elementsOfList tag cs
/-- The elements of the tag below the nodes of a list. -/
def elementsOfList (tag : Str) : List Node → List Node
  | [] => []
  | n :: ns => elementsOf tag n ++ elementsOfList tag ns
end

/-- Sample of `exhtml.ElementsByTag`. -/
def sampleElementsByTag : Option Node → Str → List Node
  | none, _ => []
  | some doc, tag => elementsOf tag doc

/-- Field `Attr`. -/
def Node.Attr : Node → List (Str × Str)
  | .mk _ _ attr _ => attr

/-- Sample of `exhtml.ElementsByTagAndId`: the elements of the tag whose attribute `id` has
the given value. -/
def sampleElementsByTagAndId (doc : Node) (tag id : Str) : List Node :=
  (elementsOf tag doc).filter (fun n => n.Attr.lookup "id".toList == some id)

mutual
/-- Sample of `html.Render` for trees of plain elements and texts without characters to
escape. -/
def renderNode : Node → Str
  | .mk ty d attr cs =>
    if ty = .ElementNode then
      "<".toList ++ d ++
      attr.flatMap (fun kv => " ".toList ++ kv.1 ++ "=\"".toList ++ kv.2 ++ "\"".toList) ++
      ">".toList ++ renderList cs ++ "</".toList ++ d ++ ">".toList
    else if ty = .TextNode then d
    else renderList cs
/-- The rendering of the nodes of a list, one after the other. -/
def renderList : List Node → Str
  | [] => []
  | n :: ns => renderNode n ++ renderList ns
end

/-- The value of a hexadecimal digit (`ishex`, `unhex` of net/url). -/
def unhex (c : Char) : Option Nat :=
  let n := c.toNat
  if 48 ≤ n ∧ n ≤ 57 then some (n - 48)
  else if 97 ≤ n ∧ n ≤ 102 then some (n - 87)
  else if 65 ≤ n ∧ n ≤ 70 then some (n - 55)
  else none

/-- Sample of `url.QueryUnescape` for ASCII text whose escapes stand for ASCII bytes: the
first `%` that two hexadecimal digits do not follow is an error whose text quotes it with at
most two code points after it; `+` is a space. -/
def sampleQueryUnescape : Str → Except GoError Str
  | [] => .ok []
  | '%' :: rest =>
    match rest with
    | h :: l :: rest2 =>
      match unhex h, unhex l with
      | some x, some y => (sampleQueryUnescape rest2).map (fun t => Char.ofNat (16 * x + y) :: t)
      | _, _ => .error (.lib ("invalid URL escape ".toList ++ ['"', '%', h, l, '"']))
    | _ => .error (.lib ("invalid URL escape ".toList ++ ['"', '%'] ++ rest ++ ['"']))
  | '+' :: rest => (sampleQueryUnescape rest).map (fun t => ' ' :: t)
  | c :: rest => (sampleQueryUnescape rest).map (fun t => c :: t)

/-- Days from 1970-01-01 to the day `d` of month `m` of year `y` of the Gregorian calendar. -/
def daysFromCivil (y m d : Int) : Int :=
  let y := if m ≤ 2 then y - 1 else y
  let era := y / 400
  let yoe := y - era * 400
  let doy := (153 * (if m > 2 then m - 3 else m + 9) + 2) / 5 + d - 1
  let doe := yoe * 365 + yoe / 4 - yoe / 100 + doy
  era * 146097 + doe - 719468

/-- The year, month and day of the day that is `z` days after 1970-01-01. -/
def civilFromDays (z : Int) : Int × Int × Int :=
  let z := z + 719468
  let era := z / 146097
  let doe := z - era * 146097
  let yoe := (doe - doe / 1460 + doe / 36524 - doe / 146096) / 365
  let doy := doe - (365 * yoe + yoe / 4 - yoe / 100)
  let mp := (5 * doy + 2) / 153
  let d := doy - (153 * mp + 2) / 5 + 1
  let m := if mp < 10 then mp + 3 else mp - 9
  (if m ≤ 2 then yoe + era * 400 + 1 else yoe + era * 400, m, d)

/-- The number written by decimal digits, when all of them are digits. -/
def digitsValue : Str → Option Nat
  | [] => some 0
  | s => if s.all isDigit then some (s.foldl (fun acc c => 10 * acc + (c.toNat - 48)) 0)
    else none

/-- The days of a month. -/
def daysIn (y m : Nat) : Nat :=
  if m = 2 then (if y % 4 = 0 ∧ (y % 100 ≠ 0 ∨ y % 400 = 0) then 29 else 28)
  else if m = 4 ∨ m = 6 ∨ m = 9 ∨ m = 11 then 30 else 31

/-- Sample of `time.Parse("2006-01-02-15-04-05", s)` for tokens of exactly that shape, read
in UTC; the text of the error is abridged. -/
def sampleParseTime (s : Str) : Except GoError Time :=
  let bad : Except GoError Time := .error (.lib ("parsing time ".toList ++ ['"'] ++ s ++
    ['"'] ++ " as ".toList ++ ['"'] ++ "2006-01-02-15-04-05".toList ++ ['"']))
  match s with
  | [y1, y2, y3, y4, '-', m1, m2, '-', d1, d2, '-', h1, h2, '-', n1, n2, '-', s1, s2] =>
    match digitsValue [y1, y2, y3, y4], digitsValue [m1, m2], digitsValue [d1, d2],
      digitsValue [h1, h2], digitsValue [n1, n2], digitsValue [s1, s2] with
    | some y, some m, some d, some h, some n, some sc =>
      if 1 ≤ m ∧ m ≤ 12 ∧ 1 ≤ d ∧ d ≤ daysIn y m ∧ h < 24 ∧ n < 60 ∧ sc < 60 then
        .ok ((daysFromCivil y m d * 86400 + h * 3600 + n * 60 + sc) * second)
      else bad
    | _, _, _, _, _, _ => bad
  | _ => bad

/-- A number written on `k` decimal digits, with leading zeros. -/
def pad : Nat → Nat → Str
  | 0, _ => []
  | k + 1, n => pad k (n / 10) ++ [Char.ofNat (48 + n % 10)]

/-- Sample of `Format(time.RFC3339)` for the years 0 to 9999. -/
def sampleFormatRFC3339 (z : ZonedTime) : Str :=
  let secs := z.instant / second + z.offset
  let (y, m, d) := civilFromDays (secs / 86400)
  let sod := (secs % 86400).toNat
  let zone : Str :=
    if z.offset = 0 then "Z".toList
    else (if z.offset < 0 then "-" else "+").toList ++ pad 2 (z.offset.natAbs / 3600) ++
      ":".toList ++ pad 2 (z.offset.natAbs / 60 % 60)
  pad 4 y.toNat ++ "-".toList ++ pad 2 m.toNat ++ "-".toList ++ pad 2 d.toNat ++ "T".toList ++
  pad 2 (sod / 3600) ++ ":".toList ++ pad 2 (sod / 60 % 60) ++ ":".toList ++ pad 2 (sod % 60) ++
  zone

/-- Sample of `AddDate` for a process whose `time.Local` is UTC: the date is moved on the
Gregorian calendar, the time of day is kept. -/
def sampleAddDate (t : Time) (years months days : Int) : Time :=
  let secs := t / second
  let (y, m, d) := civilFromDays (secs / 86400)
  let tm := (y + years) * 12 + (m - 1) + months
  let dayNo := daysFromCivil (tm / 12) (tm % 12 + 1) 1 + (d - 1) + days
  (dayNo * 86400 + secs % 86400) * second + t % second

/-- The sample environment. -/
def sampleLib : Lib :=
  { Title := "Nikkei".toList
    Domain := "cn.nikkei.com".toList
    md5hex := md5hex
    unicodeLower := sampleLower
    urlParse := sampleUrlParse
    GetRawAndDoc := sampleGetRawAndDoc
    ElementsByTag := sampleElementsByTag
    ElementsByTagAndId := sampleElementsByTagAndId
    Render := fun n => .ok (renderNode n)
    ChangeIllegalChar := fun s => s
    QueryUnescape := sampleQueryUnescape
    parseTime := sampleParseTime
    formatRFC3339 := sampleFormatRFC3339
    AddDate := sampleAddDate }

/-- An article of the corpus whose id is `ABC`, every other text field empty. -/
def upperIdArticle : Article :=
  { Id := "ABC".toList, Title := [], Content := [], WebsiteId := [], WebsiteDomain := [],
    WebsiteTitle := [], UpdateTime := none, U := none, raw := none, doc := none }

/-- The first `k` regular expressions of the chain of `fetchContent` applied in turn. -/
def rewriteSteps (k : Nat) (x : Str) : Str :=
  (rewriteRules.take k).foldl (fun x rule => ReplaceAllString rule.1 x rule.2) x

/-- The opening of the assembled document in the words of the specification, where the list
link leads to `/list/?v=` followed by the site domain. -/
def specHeader (L : Lib) (a : Article) (body : Str) : Str :=
  "# ".toList ++ a.Title ++ "\n\nLastUpdate: ".toList ++
  L.formatRFC3339 (shanghai (Timestamp.AsTime a.UpdateTime)) ++
  " @ [".toList ++ a.WebsiteTitle ++ "](/list/?v=".toList ++ a.WebsiteDomain ++
  "): [".toList ++ a.WebsiteDomain ++ "](http://".toList ++ a.WebsiteDomain ++
  ")\n\n---\n".toList ++ body

/-- A fresh article of the sample site with title `T` and the given source URL. -/
def sampleArticle (path text : String) : Article :=
  { NewArticle sampleLib with
    Title := "T".toList, U := some ⟨path.toList, text.toList⟩ }

/-- An article after a successful fetch of the given URL: `raw` and `U` are set. -/
def fetchedArticle (path text : String) : Article :=
  { NewArticle sampleLib with
    U := some ⟨path.toList, text.toList⟩, raw := some [60, 104, 116, 109, 108, 62],
    doc := some samplePage }

/-- The article that the pipeline builds for the sample article URL fetched at its publish
time. -/
def builtArticle : Article :=
  { Id := "5efec68cbfe4e94536f91b278c4b068e".toList, Title := "Markets today".toList,
    Content := ("# Markets today\n\nLastUpdate: 2020-01-02T11:04:05+08:00 @ " ++
      "[Nikkei](/list/?v=Nikkei): [cn.nikkei.com](http://cn.nikkei.com)\n\n---\n" ++
      "Hello  \n\n\n????????????[http://site/news/1234-2020-01-02-03-04-05.html]" ++
      "(http://site/news/1234-2020-01-02-03-04-05.html)").toList,
    WebsiteId := "e3796f3673543a69c1e9ccd90176fd21".toList,
    WebsiteDomain := "cn.nikkei.com".toList, WebsiteTitle := "Nikkei".toList,
    UpdateTime := some ⟨1577934245, 0⟩,
    U := some ⟨"/news/1234-2020-01-02-03-04-05.html".toList,
      "http://site/news/1234-2020-01-02-03-04-05.html?tmpl=component".toList⟩,
    raw := some [60, 104, 116, 109, 108, 62], doc := some samplePage }

/-- The instant 2020-01-10T00:00:00Z. -/
def sampleNow : Time := 1578614400 * second

end Fetcher

/-! # Theorems -/

namespace Fetcher

set_option maxRecDepth 100000

/-! ## Corpus queries -/

theorem getLoop_cases (L : Lib) (id : Str) (corpus : List (Option Article))
    (hnil : ∀ pre post, corpus = pre ++ none :: post → ∃ a, some a ∈ pre ∧ a.Id = id) :
    (∃ pre a post, corpus = pre ++ some a :: post ∧ a.Id = id ∧
      (∀ b, some b ∈ pre → b.Id ≠ id) ∧ getLoop L id corpus = .ok (some a, none)) ∨
    ((∀ a, some a ∈ corpus → a.Id ≠ id) ∧ getLoop L id corpus = .ok (none, some (.errorf
      ("[".toList ++ L.Title ++ "] no article with id: ".toList ++ id)))) := by
  induction corpus with
  | nil => right; exact ⟨by simp, rfl⟩
  | cons x xs ih =>
    cases x with
    | none =>
      obtain ⟨a, ha, _⟩ := hnil [] xs rfl
      simp at ha
    | some a =>
      by_cases h : a.Id = id
      · left
        exact ⟨[], a, xs, rfl, h, by simp, by simp [getLoop, h]⟩
      · have hnil2 : ∀ pre post, xs = pre ++ none :: post → ∃ b, some b ∈ pre ∧ b.Id = id := by
          intro pre post hsplit
          obtain ⟨b, hb, hbid⟩ := hnil (some a :: pre) post (by simp [hsplit])
          rcases List.mem_cons.mp hb with hba | hb
          · have : b = a := Option.some.inj hba
            exact absurd (this ▸ hbid) h
          · exact ⟨b, hb, hbid⟩
        rcases ih hnil2 with ⟨pre, b, post, hsplit, hb, hpre, hget⟩ | ⟨hall, hget⟩
        · left
          refine ⟨some a :: pre, b, post, by simp [hsplit], hb, ?_, by simp [getLoop, h, hget]⟩
          intro c hc
          rcases List.mem_cons.mp hc with hca | hc
          · have : c = a := Option.some.inj hca
            exact this ▸ h
          · exact hpre c hc
        · right
          refine ⟨?_, by simp [getLoop, h, hget]⟩
          intro c hc
          rcases List.mem_cons.mp hc with hca | hc
          · have : c = a := Option.some.inj hca
            exact this ▸ h
          · exact hall c hc

/-- C3, as the code has it. On a loaded corpus in which no nil entry stands before the first
article with the id (no nil entry at all when no article has the id), `Get` returns an
article exactly when some article of the corpus has the id; the article returned is the first
one with that id in corpus order and comes with no error; when no article has the id, `Get`
returns no article and the not-found error. -/
theorem Get_returns_first_match (L : Lib) (corpus : List (Option Article)) (id : Str)
    (hnil : ∀ pre post, corpus = pre ++ none :: post → ∃ a, some a ∈ pre ∧ a.Id = id) :
    ((∃ a, some a ∈ corpus ∧ a.Id = id) ↔ ∃ a, Get L (.ok corpus) id = .ok (some a, none)) ∧
    (∀ a e, Get L (.ok corpus) id = .ok (some a, e) →
      e = none ∧
      ∃ pre post, corpus = pre ++ some a :: post ∧ a.Id = id ∧ ∀ b, some b ∈ pre → b.Id ≠ id) ∧
    ((∀ a, some a ∈ corpus → a.Id ≠ id) →
      Get L (.ok corpus) id = .ok (none, some (.errorf
        ("[".toList ++ L.Title ++ "] no article with id: ".toList ++ id)))) := by
  simp only [Get]
  rcases getLoop_cases L id corpus hnil with ⟨pre, b, post, hsplit, hb, hpre, hget⟩ | ⟨hall, hget⟩
  · refine ⟨⟨fun _ => ⟨b, hget⟩, fun _ => ⟨b, by simp [hsplit], hb⟩⟩, ?_, ?_⟩
    · intro a e ha
      rw [hget] at ha
      cases ha
      exact ⟨rfl, pre, post, hsplit, hb, hpre⟩
    · intro hall
      exact absurd hb (hall b (by simp [hsplit]))
  · refine ⟨⟨fun ⟨a, ha, hid⟩ => absurd hid (hall a ha), fun ⟨a, ha⟩ => ?_⟩, ?_, fun _ => hget⟩
    · rw [hget] at ha
      cases ha
    · intro a e ha
      rw [hget] at ha
      cases ha

/-- The theorem `Get_returns_first_match` applies to the corpus of the article with id `ABC`
followed by a nil entry, and to the id `ABC`. -/
theorem Get_returns_first_match_witness :
    ∃ a, Get sampleLib (.ok [some upperIdArticle, none]) "ABC".toList = .ok (some a, none) :=
  (Get_returns_first_match sampleLib [some upperIdArticle, none] "ABC".toList
    (fun pre post h => by
      cases pre with
      | nil => simp at h
      | cons x pre =>
        simp only [List.cons_append, List.cons.injEq] at h
        exact ⟨upperIdArticle, by simp [← h.1], rfl⟩)).1.mp
    ⟨upperIdArticle, by simp, rfl⟩

/-- C3 fails as stated: the corpus loaded from the file `[null]` has one entry, which is nil,
so no article has the id `abc`; `Get` does not return the not-found error, it panics on
reading `Id` of the nil entry. -/
theorem Get_nil_entry_panics :
    (∀ a : Article, some a ∈ ([none] : List (Option Article)) → a.Id ≠ "abc".toList) ∧
    Get sampleLib (.ok [none]) "abc".toList = .error .nilDeref :=
  ⟨fun a h => by simp at h, by decide!⟩

theorem searchKeywords_some (L : Lib) (art : Article) (keyword : List Str)
    (acc : List (Option Article)) :
    searchKeywords L (some art) keyword acc =
      .ok (acc ++ (keyword.filter (searchCase L art)).map (fun _ => some art)) := by
  induction keyword generalizing acc with
  | nil => simp [searchKeywords]
  | cons k ks ih =>
    simp only [searchKeywords, List.filter_cons]
    by_cases h : searchCase L art k = true
    · simp [h, ih]
    · simp [h, ih]

theorem searchLoop_eq (L : Lib) (keyword : List Str) (corpus : List (Option Article))
    (hnil : keyword ≠ [] → ∀ x ∈ corpus, x ≠ none) (acc : List (Option Article)) :
    searchLoop L keyword corpus acc =
      .ok (acc ++ corpus.flatMap (fun x => x.elim []
        (fun art => (keyword.filter (searchCase L art)).map (fun _ => some art)))) := by
  induction corpus generalizing acc with
  | nil => simp [searchLoop]
  | cons x xs ih =>
    have hxs : keyword ≠ [] → ∀ y ∈ xs, y ≠ none :=
      fun hk y hy => hnil hk y (List.mem_cons_of_mem _ hy)
    cases x with
    | none =>
      have hk : keyword = [] := by
        by_contra hk
        exact hnil hk none (by simp) rfl
      subst hk
      simp only [searchLoop, searchKeywords, List.flatMap_cons, Option.elim_none,
        List.nil_append]
      exact ih hxs acc
    | some art =>
      simp only [searchLoop, searchKeywords_some, List.flatMap_cons, Option.elim_some]
      rw [ih hxs, List.append_assoc]

theorem mem_search_hits (L : Lib) (keyword : List Str) (corpus : List (Option Article))
    (a : Article) :
    some a ∈ corpus.flatMap (fun x => x.elim []
        (fun art => (keyword.filter (searchCase L art)).map (fun _ => some art))) ↔
      some a ∈ corpus ∧ ∃ k ∈ keyword, searchCase L a k = true := by
  simp only [List.mem_flatMap]
  constructor
  · rintro ⟨x, hx, hmem⟩
    cases x with
    | none => simp at hmem
    | some art =>
      simp only [Option.elim_some, List.mem_map, List.mem_filter] at hmem
      obtain ⟨k, ⟨hk, hc⟩, hart⟩ := hmem
      have : art = a := Option.some.inj hart
      subst this
      exact ⟨hx, k, hk, hc⟩
  · rintro ⟨ha, k, hk, hc⟩
    refine ⟨some a, ha, ?_⟩
    simp only [Option.elim_some, List.mem_map, List.mem_filter]
    exact ⟨k, ⟨hk, hc⟩, by simp⟩

theorem searchCase_iff (L : Lib) (a : Article) (k : Str) :
    searchCase L a k = true ↔
      (a.Id = ToLower L.unicodeLower (TrimSpace k) ∨
       a.WebsiteId = ToLower L.unicodeLower (TrimSpace k) ∨
       Contains (ToLower L.unicodeLower a.Title) (ToLower L.unicodeLower (TrimSpace k)) = true ∨
       Contains (ToLower L.unicodeLower a.Content) (ToLower L.unicodeLower (TrimSpace k)) = true ∨
       Contains (ToLower L.unicodeLower a.WebsiteDomain)
         (ToLower L.unicodeLower (TrimSpace k)) = true ∨
       Contains (ToLower L.unicodeLower a.WebsiteTitle)
         (ToLower L.unicodeLower (TrimSpace k)) = true) := by
  simp only [searchCase]
  split_ifs <;> simp_all

/-- C2, as the code has it. On a loaded corpus without nil entry (on any loaded corpus when
there is no keyword) `Search` returns a list and no error, and an article is in the list if
and only if it is in the corpus and, for at least one keyword, the keyword trimmed of white
space and put in lower case equals the id or the site id of the article, or is a substring of
the lower-cased title, content, site domain or site title. -/
theorem Search_mem_iff (L : Lib) (corpus : List (Option Article)) (keyword : List Str)
    (a : Article) (hnil : keyword ≠ [] → ∀ x ∈ corpus, x ≠ none) :
    ∃ r, Search L (.ok corpus) keyword = .ok (some r, none) ∧
      (some a ∈ r ↔ some a ∈ corpus ∧ ∃ k ∈ keyword,
        a.Id = ToLower L.unicodeLower (TrimSpace k) ∨
        a.WebsiteId = ToLower L.unicodeLower (TrimSpace k) ∨
        Contains (ToLower L.unicodeLower a.Title) (ToLower L.unicodeLower (TrimSpace k)) = true ∨
        Contains (ToLower L.unicodeLower a.Content) (ToLower L.unicodeLower (TrimSpace k)) = true ∨
        Contains (ToLower L.unicodeLower a.WebsiteDomain)
          (ToLower L.unicodeLower (TrimSpace k)) = true ∨
        Contains (ToLower L.unicodeLower a.WebsiteTitle)
          (ToLower L.unicodeLower (TrimSpace k)) = true) := by
  refine ⟨corpus.flatMap (fun x => x.elim []
    (fun art => (keyword.filter (searchCase L art)).map (fun _ => some art))), ?_, ?_⟩
  · simp only [Search, searchLoop_eq L keyword corpus hnil [], List.nil_append]
  · rw [mem_search_hits]
    simp only [searchCase_iff]

/-- The theorem `Search_mem_iff` applies to the corpus of the article built from the sample
page, whose title is `Markets today`, and the keyword `MARKETS` between spaces. -/
theorem Search_mem_iff_witness :
    ∃ r, Search sampleLib (.ok [some builtArticle]) [" MARKETS ".toList] = .ok (some r, none) ∧
      (some builtArticle ∈ r ↔ some builtArticle ∈ [some builtArticle] ∧
        ∃ k ∈ [" MARKETS ".toList],
        builtArticle.Id = ToLower sampleLib.unicodeLower (TrimSpace k) ∨
        builtArticle.WebsiteId = ToLower sampleLib.unicodeLower (TrimSpace k) ∨
        Contains (ToLower sampleLib.unicodeLower builtArticle.Title)
          (ToLower sampleLib.unicodeLower (TrimSpace k)) = true ∨
        Contains (ToLower sampleLib.unicodeLower builtArticle.Content)
          (ToLower sampleLib.unicodeLower (TrimSpace k)) = true ∨
        Contains (ToLower sampleLib.unicodeLower builtArticle.WebsiteDomain)
          (ToLower sampleLib.unicodeLower (TrimSpace k)) = true ∨
        Contains (ToLower sampleLib.unicodeLower builtArticle.WebsiteTitle)
          (ToLower sampleLib.unicodeLower (TrimSpace k)) = true) :=
  Search_mem_iff sampleLib [some builtArticle] [" MARKETS ".toList] builtArticle
    (fun _ x hx => by
      rw [List.mem_singleton] at hx
      rw [hx]
      exact Option.some_ne_none _)

/-- C2 fails as stated: the keyword `ABC` equals the id of the only article of the corpus
exactly, so the article matches in the words of the specification, and `Search` returns the
empty list, because it compares the id with the lower-cased keyword `abc`. -/
theorem Search_misses_exact_id :
    specMatches sampleLib upperIdArticle "ABC".toList = true ∧
    Search sampleLib (.ok [some upperIdArticle]) ["ABC".toList] = .ok (some [], none) := by
  decide!

/-! ## The rewrite chain -/

/-- C6. On `<div><table>X</table><p>Y</p></div>` the chain yields `Y`, two spaces and a
newline: the first expression strips the div shell, the second drops the table with its
contents, the third changes nothing, the fourth converts the paragraph, and nothing after
it, the replacer included, changes the text. -/
theorem rewrite_rule_order :
    rewrite "<div><table>X</table><p>Y</p></div>".toList = "Y  \n".toList ∧
    rewriteSteps 1 "<div><table>X</table><p>Y</p></div>".toList
      = "<table>X</table><p>Y</p>".toList ∧
    rewriteSteps 2 "<div><table>X</table><p>Y</p></div>".toList = "<p>Y</p>".toList ∧
    rewriteSteps 3 "<div><table>X</table><p>Y</p></div>".toList = "<p>Y</p>".toList ∧
    rewriteSteps 4 "<div><table>X</table><p>Y</p></div>".toList = "Y  \n".toList ∧
    rewriteRegex "<div><table>X</table><p>Y</p></div>".toList = "Y  \n".toList := by
  decide!

theorem replaceAllScan_no_lt (prog : List Inst) (tmpl : List Piece)
    (hprog : ∀ c s, c ≠ '<' → matchHere prog (c :: s) = none) (x : Str) (h : '<' ∉ x) :
    replaceAllScan prog tmpl x 0 = x := by
  induction x with
  | nil => rfl
  | cons c s ih =>
    have hc : c ≠ '<' := fun e => h (by simp [e])
    have hs : '<' ∉ s := fun e => h (List.mem_cons_of_mem _ e)
    simp only [replaceAllScan, hprog c s hc, ih hs]

theorem rewriteRules_start (rule : List Inst × List Piece) (hr : rule ∈ rewriteRules)
    (c : Char) (s : Str) (hc : c ≠ '<') : matchHere rule.1 (c :: s) = none := by
  simp only [rewriteRules, List.mem_cons, List.mem_singleton, List.not_mem_nil, or_false] at hr
  rcases hr with rfl | rfl | rfl | rfl | rfl | rfl | rfl | rfl | rfl | rfl | rfl | rfl | rfl | rfl
  all_goals
    show Inst.run (Inst.rune (isLit '<') :: _) (c :: s) 0 _ = none
    simp [Inst.run, isLit, hc]

theorem foldl_rules_no_lt (rules : List (List Inst × List Piece))
    (hrules : ∀ rule ∈ rules, ∀ c s, c ≠ '<' → matchHere rule.1 (c :: s) = none)
    (x : Str) (h : '<' ∉ x) :
    rules.foldl (fun x rule => ReplaceAllString rule.1 x rule.2) x = x := by
  induction rules with
  | nil => rfl
  | cons r rs ih =>
    simp only [List.foldl_cons, ReplaceAllString]
    rw [replaceAllScan_no_lt r.1 r.2 (hrules r (by simp)) x h]
    exact ih (fun rule hr => hrules rule (List.mem_cons_of_mem _ hr))

theorem rewriteRegex_no_lt (x : Str) (h : '<' ∉ x) : rewriteRegex x = x :=
  foldl_rules_no_lt rewriteRules (fun rule hr => rewriteRules_start rule hr) x h

theorem replacerLookup_none (ps : List (Str × Str)) (x : Str)
    (h : ∀ p ∈ ps, HasPrefix x p.1 = false) : replacerLookup ps x = none := by
  induction ps with
  | nil => rfl
  | cons p ps ih =>
    obtain ⟨old, new⟩ := p
    have h1 : HasPrefix x old = false := h (old, new) (by simp)
    simp only [replacerLookup, h1]
    exact ih (fun q hq => h q (List.mem_cons_of_mem _ hq))

theorem Replace_absent (ps : List (Str × Str)) (x : Str)
    (h : ∀ p ∈ ps, Contains x p.1 = false) : Replace ps x = x := by
  unfold Replace
  induction x with
  | nil => rfl
  | cons c s ih =>
    have hpre : ∀ p ∈ ps, HasPrefix (c :: s) p.1 = false := by
      intro p hp
      have := h p hp
      simp only [Contains, Bool.or_eq_false_iff] at this
      exact this.1
    have hrest : ∀ p ∈ ps, Contains s p.1 = false := by
      intro p hp
      have := h p hp
      simp only [Contains, Bool.or_eq_false_iff] at this
      exact this.2
    simp only [replacerScan, replacerLookup_none ps (c :: s) hpre, ih hrest]

/-- C5, as the code has it. On a text without `<` the regular expressions of the chain change
nothing, so the chain returns what the final replacer makes of the text; the text comes back
unchanged when, moreover, none of the old strings of the replacer occurs in it. -/
theorem rewrite_without_tags (x : Str) (h : '<' ∉ x) :
    rewriteRegex x = x ∧ rewrite x = Replace contentReplacer x ∧
    ((∀ p ∈ contentReplacer, Contains x p.1 = false) → rewrite x = x) := by
  have h1 := rewriteRegex_no_lt x h
  refine ⟨h1, by simp only [rewrite, h1], fun hp => ?_⟩
  simp only [rewrite, h1]
  exact Replace_absent contentReplacer x hp

/-- The theorem `rewrite_without_tags` applies to the text `plain text`, which has no tag and
none of the old strings of the replacer. -/
theorem rewrite_without_tags_witness :
    '<' ∉ "plain text".toList ∧ rewrite "plain text".toList = "plain text".toList :=
  ⟨by decide, (rewrite_without_tags "plain text".toList (by decide)).2.2 (by decide)⟩

/-- C5 fails as stated: the text `a`, two newlines, `b` has no tag, and the chain returns
`a`, one newline, `b`, because the final replacer collapses the doubled newline. -/
theorem rewrite_collapses_newlines :
    '<' ∉ "a\n\nb".toList ∧ rewrite "a\n\nb".toList = "a\nb".toList ∧
    rewrite "a\n\nb".toList ≠ "a\n\nb".toList := by
  decide!

/-! ## Document assembly -/

/-- C4, as the code has it. For every article with a source URL and every body, `fmtContent`
returns no error and a document that begins with the title line, the line of the last
update, whose list link leads to `/list/?v=` followed by the site title, the separator, and
the body. -/
theorem fmtContent_header (L : Lib) (a : Article) (u : URL) (body : Str) :
    ∃ tail, fmtContent L { a with U := some u } body =
      .ok ("# ".toList ++ a.Title ++ "\n\nLastUpdate: ".toList ++
        L.formatRFC3339 (shanghai (Timestamp.AsTime a.UpdateTime)) ++
        " @ [".toList ++ a.WebsiteTitle ++ "](/list/?v=".toList ++ a.WebsiteTitle ++
        "): [".toList ++ a.WebsiteDomain ++ "](http://".toList ++ a.WebsiteDomain ++
        ")\n\n---\n".toList ++ body ++ tail, none) := by
  refine ⟨"\n\n".toList ++ sourceLine L u.String, ?_⟩
  simp only [fmtContent, urlString, webTitle, bind, Except.bind, pure, Except.pure,
    List.append_assoc]
  rfl

/-- C4 fails as stated: for the sample article, whose site title `Nikkei` differs from its
site domain `cn.nikkei.com`, the document does not begin with the opening the specification
gives; its list link is `/list/?v=Nikkei`. -/
theorem fmtContent_list_link_is_title :
    fmtContent sampleLib (sampleArticle "/a.html" "http://site/a.html") "BODY".toList =
      .ok (("# T\n\nLastUpdate: 1970-01-01T08:00:00+08:00 @ [Nikkei](/list/?v=Nikkei): " ++
        "[cn.nikkei.com](http://cn.nikkei.com)\n\n---\nBODY\n\n" ++
        "????????????[http://site/a.html](http://site/a.html)").toList, none) ∧
    HasPrefix (("# T\n\nLastUpdate: 1970-01-01T08:00:00+08:00 @ [Nikkei](/list/?v=Nikkei): " ++
        "[cn.nikkei.com](http://cn.nikkei.com)\n\n---\nBODY\n\n" ++
        "????????????[http://site/a.html](http://site/a.html)").toList)
      (specHeader sampleLib (sampleArticle "/a.html" "http://site/a.html") "BODY".toList)
      = false := by
  decide!

/-- C9 at the failing input. The source URL `http://site/a.html?tmpl=%zz` cannot be
unescaped; `fmtContent` returns no error, and the last line of the document is the link to
`http://site/a.html` alone: the cut at `?tmpl=` removes the rest of the raw URL and the whole
note, so the text `unescape url error:` is nowhere in the document. -/
theorem fmtContent_drops_unescape_note :
    sampleLib.QueryUnescape "http://site/a.html?tmpl=%zz".toList =
      .error (.lib "invalid URL escape \"%zz\"".toList) ∧
    fmtContent sampleLib (sampleArticle "/a.html" "http://site/a.html?tmpl=%zz") "BODY".toList =
      .ok (("# T\n\nLastUpdate: 1970-01-01T08:00:00+08:00 @ [Nikkei](/list/?v=Nikkei): " ++
        "[cn.nikkei.com](http://cn.nikkei.com)\n\n---\nBODY\n\n" ++
        "????????????[http://site/a.html](http://site/a.html)").toList, none) ∧
    Contains (("# T\n\nLastUpdate: 1970-01-01T08:00:00+08:00 @ [Nikkei](/list/?v=Nikkei): " ++
        "[cn.nikkei.com](http://cn.nikkei.com)\n\n---\nBODY\n\n" ++
        "????????????[http://site/a.html](http://site/a.html)").toList)
      "unescape url error:".toList = false := by
  decide!

/-- Where the source URL cannot be unescaped, `fmtContent` returns no error, and the link of
the last line shows the text before the first `?tmpl=` of the raw URL followed by the note
and the text of the error. -/
theorem fmtContent_unescape_error (L : Lib) (a : Article) (u : URL) (body : Str) (err : GoError)
    (herr : L.QueryUnescape u.String = .error err) :
    ∃ head, fmtContent L { a with U := some u } body =
      .ok (head ++ "[".toList ++
        splitHead "?tmpl=".toList
          (u.String ++ "\n\nunescape url error:\n".toList ++ err.Error) ++ "](".toList ++
        splitHead "?tmpl=".toList
          (u.String ++ "\n\nunescape url error:\n".toList ++ err.Error) ++ ")".toList, none) := by
  refine ⟨"# ".toList ++ a.Title ++ "\n\n".toList ++ "LastUpdate: ".toList ++
    L.formatRFC3339 (shanghai (Timestamp.AsTime a.UpdateTime)) ++ webTitle { a with U := some u }
    ++ "\n\n".toList ++ "---\n".toList ++ body ++ "\n\n".toList ++ "????????????".toList, ?_⟩
  simp only [fmtContent, urlString, sourceLine, sourceText, herr, bind, Except.bind, pure,
    Except.pure, List.append_assoc]

/-- The theorem `fmtContent_unescape_error` applies to the sample article with the source URL
`http://site/a.html?x=%zz`. -/
theorem fmtContent_unescape_error_witness :
    sampleLib.QueryUnescape "http://site/a.html?x=%zz".toList =
      .error (.lib "invalid URL escape \"%zz\"".toList) ∧
    ∃ head, fmtContent sampleLib (sampleArticle "/a.html" "http://site/a.html?x=%zz")
        "BODY".toList =
      .ok (head ++ "[".toList ++
        splitHead "?tmpl=".toList ("http://site/a.html?x=%zz".toList ++
          "\n\nunescape url error:\n".toList ++ "invalid URL escape \"%zz\"".toList) ++
        "](".toList ++
        splitHead "?tmpl=".toList ("http://site/a.html?x=%zz".toList ++
          "\n\nunescape url error:\n".toList ++ "invalid URL escape \"%zz\"".toList) ++
        ")".toList, none) :=
  ⟨by decide!, fmtContent_unescape_error sampleLib (sampleArticle "/a.html" "")
    ⟨"/a.html".toList, "http://site/a.html?x=%zz".toList⟩ "BODY".toList
    (.lib "invalid URL escape \"%zz\"".toList) (by decide!)⟩

/-! ## Title and update time -/

/-- Where the first title element has a first child, `fetchTitle` completes normally with the
text of that child, rid of the noise text, trimmed and sanitised. -/
theorem fetchTitle_of_child (L : Lib) (a : Article) (n0 child : Node) (ns : List Node)
    (htitle : L.ElementsByTag a.doc "title".toList = n0 :: ns)
    (hchild : n0.FirstChild = some child) :
    fetchTitle L a =
      .ok (L.ChangeIllegalChar (TrimSpace (Replace titleReplacer child.Data)), none) := by
  simp only [fetchTitle, htitle, hchild]
  rfl

/-- The theorem `fetchTitle_of_child` applies to the sample page, whose title is
`Markets today` between two spaces. -/
theorem fetchTitle_of_child_witness :
    fetchTitle sampleLib (fetchedArticle "/a.html" "http://site/a.html") =
      .ok (sampleLib.ChangeIllegalChar
        (TrimSpace (Replace titleReplacer (textNode " Markets today ").Data)), none) :=
  fetchTitle_of_child sampleLib (fetchedArticle "/a.html" "http://site/a.html")
    (elem "title" [] [textNode " Markets today "]) (textNode " Markets today ") []
    (by decide!) (by decide!)

/-- C10 at the failing input. The page of `http://site/empty.html` has a title element, and
the element has no child (`<title></title>`): `fetchTitle` reads `Data` of the missing first
child and panics, and so does `fetchArticle` for that URL. -/
theorem fetchTitle_empty_title_panics :
    sampleLib.ElementsByTag (some emptyTitlePage) "title".toList = [elem "title" [] []] ∧
    (elem "title" [] []).FirstChild = none ∧
    fetchTitle sampleLib
      { fetchedArticle "/empty.html" "http://site/empty.html" with doc := some emptyTitlePage }
      = .error .nilDeref ∧
    fetchArticle sampleLib sampleNow sampleNow (NewArticle sampleLib)
      "http://site/empty.html".toList = .error .nilDeref := by
  decide!

theorem fetchUpdateTime_eq (L : Lib) (now₀ now₁ : Time) (a : Article) (raw : List Nat) (u : URL)
    (t : Time) (hraw : a.raw = some raw) (hu : a.U = some u)
    (ht : (FindStringSubmatch updateTimeRe 1 u.String = [] ∧ t = now₀) ∨
      (FindStringSubmatch updateTimeRe 1 u.String ≠ [] ∧
        L.parseTime ((FindStringSubmatch updateTimeRe 1 u.String).getD 1 []) = .ok t)) :
    fetchUpdateTime L now₀ now₁ a =
      .ok (some (Timestamp.New t),
        if t < L.AddDate now₁ 0 0 (-3) then some .ErrTimeOverDays else none) := by
  simp only [fetchUpdateTime, hraw, urlString, hu, bind, Except.bind, pure, Except.pure]
  rcases ht with ⟨h1, rfl⟩ | ⟨h1, h2⟩
  · simp only [h1, List.length_nil, ne_eq, not_true_eq_false, if_false]
    split_ifs <;> rfl
  · have hlen : (FindStringSubmatch updateTimeRe 1 u.String).length ≠ 0 := by
      simpa [List.length_eq_zero] using h1
    simp only [hlen, ne_eq, not_false_eq_true, if_true, h2]
    split_ifs <;> rfl

/-- C7, as the code has it. Let `now₀` and `now₁` be the two readings of the clock, in order,
and `t` the timestamp `fetchUpdateTime` obtains: the instant parsed from the token of the
URL, or `now₀` when the URL does not match the pattern. The threshold is
`now₁.AddDate(0, 0, -3)`, three days back from the second reading on the calendar of the
local zone. The result is `t` with the signal `ErrTimeOverDays` if and only if `t` is
strictly earlier than the threshold, and `t` with no error otherwise. So the threshold minus
1 second is flagged, the threshold plus 1 second is not, and the current-time fallback is
flagged exactly when the first reading is earlier than the threshold: never when the
threshold is not after the first reading. -/
theorem fetchUpdateTime_stale_iff (L : Lib) (now₀ now₁ : Time) (a : Article) (raw : List Nat)
    (u : URL) (t : Time) (hraw : a.raw = some raw) (hu : a.U = some u)
    (ht : (FindStringSubmatch updateTimeRe 1 u.String = [] ∧ t = now₀) ∨
      (FindStringSubmatch updateTimeRe 1 u.String ≠ [] ∧
        L.parseTime ((FindStringSubmatch updateTimeRe 1 u.String).getD 1 []) = .ok t)) :
    ∃ e, fetchUpdateTime L now₀ now₁ a = .ok (some (Timestamp.New t), e) ∧
      (e = some .ErrTimeOverDays ↔ t < L.AddDate now₁ 0 0 (-3)) ∧
      (e = none ↔ ¬ t < L.AddDate now₁ 0 0 (-3)) ∧
      (t = L.AddDate now₁ 0 0 (-3) - second → e = some .ErrTimeOverDays) ∧
      (t = L.AddDate now₁ 0 0 (-3) + second → e = none) ∧
      (FindStringSubmatch updateTimeRe 1 u.String = [] →
        (e = some .ErrTimeOverDays ↔ now₀ < L.AddDate now₁ 0 0 (-3)) ∧
        (L.AddDate now₁ 0 0 (-3) ≤ now₀ → e = none)) := by
  have hsec : (0 : Int) < second := by decide
  refine ⟨_, fetchUpdateTime_eq L now₀ now₁ a raw u t hraw hu ht, ?_, ?_, ?_, ?_, ?_⟩
  · split_ifs with h
    · exact ⟨fun _ => h, fun _ => rfl⟩
    · exact ⟨fun e => (by cases e), fun h1 => absurd h1 h⟩
  · split_ifs with h
    · exact ⟨fun e => (by cases e), fun h1 => absurd h h1⟩
    · exact ⟨fun _ => h, fun _ => rfl⟩
  · intro h
    have hlt : t < L.AddDate now₁ 0 0 (-3) := by linarith
    rw [if_pos hlt]
  · intro h
    have hge : ¬ t < L.AddDate now₁ 0 0 (-3) := by linarith
    rw [if_neg hge]
  · intro h
    rcases ht with ⟨_, rfl⟩ | ⟨h1, _⟩
    · refine ⟨?_, fun hle => ?_⟩
      · split_ifs with hlt
        · exact ⟨fun _ => hlt, fun _ => rfl⟩
        · exact ⟨fun e => (by cases e), fun h1 => absurd h1 hlt⟩
      · have hge : ¬ t < L.AddDate now₁ 0 0 (-3) := by linarith
        rw [if_neg hge]
    · exact absurd h h1

/-- The theorem `fetchUpdateTime_stale_iff` applies, with both readings of the clock at
2020-01-10T00:00:00Z, to the URL whose token is 2020-01-06-23-59-59, one second before the
threshold 2020-01-07T00:00:00Z. -/
theorem fetchUpdateTime_stale_iff_witness :
    sampleLib.AddDate sampleNow 0 0 (-3) - second = 1578355199 * second ∧
    ∃ e, fetchUpdateTime sampleLib sampleNow sampleNow
        (fetchedArticle "/news/1234-2020-01-06-23-59-59.html"
          "http://site/news/1234-2020-01-06-23-59-59.html?tmpl=component")
        = .ok (some (Timestamp.New (1578355199 * second)), e) ∧
      (e = some .ErrTimeOverDays ↔ 1578355199 * second < sampleLib.AddDate sampleNow 0 0 (-3)) ∧
      (e = none ↔ ¬ 1578355199 * second < sampleLib.AddDate sampleNow 0 0 (-3)) ∧
      (1578355199 * second = sampleLib.AddDate sampleNow 0 0 (-3) - second →
        e = some .ErrTimeOverDays) ∧
      (1578355199 * second = sampleLib.AddDate sampleNow 0 0 (-3) + second → e = none) ∧
      (FindStringSubmatch updateTimeRe 1
        "http://site/news/1234-2020-01-06-23-59-59.html?tmpl=component".toList = [] →
        (e = some .ErrTimeOverDays ↔ sampleNow < sampleLib.AddDate sampleNow 0 0 (-3)) ∧
        (sampleLib.AddDate sampleNow 0 0 (-3) ≤ sampleNow → e = none)) :=
  ⟨by decide!, fetchUpdateTime_stale_iff sampleLib sampleNow sampleNow
    (fetchedArticle "/news/1234-2020-01-06-23-59-59.html"
      "http://site/news/1234-2020-01-06-23-59-59.html?tmpl=component")
    [60, 104, 116, 109, 108, 62]
    ⟨"/news/1234-2020-01-06-23-59-59.html".toList,
      "http://site/news/1234-2020-01-06-23-59-59.html?tmpl=component".toList⟩
    (1578355199 * second) (by decide!) (by decide!) (Or.inr ⟨by decide!, by decide!⟩)⟩

/-- C7 fails as stated: the fallback can be flagged. The URL `http://site/a.html` does not
match the pattern, so the timestamp is the first reading of the clock, 2020-01-10T00:00:00Z;
the second reading is 2020-01-14T00:00:00Z, the threshold 2020-01-11T00:00:00Z, and
`fetchUpdateTime` returns the first reading together with `ErrTimeOverDays`. -/
theorem fetchUpdateTime_fallback_flagged :
    FindStringSubmatch updateTimeRe 1 "http://site/a.html".toList = [] ∧
    sampleLib.AddDate (sampleNow + 4 * 86400 * second) 0 0 (-3)
      = sampleNow + 86400 * second ∧
    fetchUpdateTime sampleLib sampleNow (sampleNow + 4 * 86400 * second)
        (fetchedArticle "/a.html" "http://site/a.html")
      = .ok (some (Timestamp.New sampleNow), some .ErrTimeOverDays) := by
  decide!

/-! ## The pipeline -/

/-- C1, as the code has it. Where the URL parses, the fetch succeeds, the document has a title
element with text, and the publish time obtained is strictly older than the current instant
minus 3 days, that is, than `time.Now().AddDate(0, 0, -3)` at the second reading of the
clock, `fetchArticle` returns no article: its result is nil together with
`ErrTimeOverDays`. -/
theorem fetchArticle_stale_withheld (L : Lib) (now₀ now₁ : Time) (a : Article) (rawurl : Str)
    (u : URL) (raw : List Nat) (doc : Option Node) (n0 child : Node) (ns : List Node) (t : Time)
    (hparse : L.urlParse rawurl = .ok u)
    (hfetch : L.GetRawAndDoc u = (some raw, doc, none))
    (htitle : L.ElementsByTag doc "title".toList = n0 :: ns)
    (hchild : n0.FirstChild = some child)
    (ht : (FindStringSubmatch updateTimeRe 1 u.String = [] ∧ t = now₀) ∨
      (FindStringSubmatch updateTimeRe 1 u.String ≠ [] ∧
        L.parseTime ((FindStringSubmatch updateTimeRe 1 u.String).getD 1 []) = .ok t))
    (hstale : t < L.AddDate now₁ 0 0 (-3)) :
    fetchArticle L now₀ now₁ a rawurl = .ok (none, some .ErrTimeOverDays) := by
  simp only [fetchArticle, hparse, hfetch]
  rw [fetchTitle_of_child L _ n0 child ns htitle hchild]
  simp only [bind, Except.bind]
  rw [fetchUpdateTime_eq L now₀ now₁ _ raw u t rfl rfl ht, if_pos hstale]
  rfl

/-- The theorem `fetchArticle_stale_withheld` applies at 2020-01-10T00:00:00Z to the sample
article URL, whose token is 2020-01-02-03-04-05. -/
theorem fetchArticle_stale_withheld_witness :
    fetchArticle sampleLib sampleNow sampleNow (NewArticle sampleLib)
      "http://site/news/1234-2020-01-02-03-04-05.html?tmpl=component".toList =
      .ok (none, some .ErrTimeOverDays) :=
  fetchArticle_stale_withheld sampleLib sampleNow sampleNow (NewArticle sampleLib)
    "http://site/news/1234-2020-01-02-03-04-05.html?tmpl=component".toList
    ⟨"/news/1234-2020-01-02-03-04-05.html".toList,
      "http://site/news/1234-2020-01-02-03-04-05.html?tmpl=component".toList⟩
    [60, 104, 116, 109, 108, 62] (some samplePage)
    (elem "title" [] [textNode " Markets today "]) (textNode " Markets today ") []
    (1577934245 * second) (by decide!) (by decide!) (by decide!) (by decide!)
    (Or.inr ⟨by decide!, by decide!⟩) (by decide!)

/-- C1 fails as stated. For the sample article URL the fetch succeeds, the page has a title
element and a content container, and the publish time 2020-01-02T03:04:05Z is more than 7
days older than the current instant 2020-01-10T00:00:00Z, so strictly older than that instant
minus 3 days; `fetchArticle` returns `ErrTimeOverDays` and no article. Fetched at the publish
time itself, the same URL yields the article. -/
theorem fetchArticle_stale_returns_nil :
    sampleLib.GetRawAndDoc ⟨"/news/1234-2020-01-02-03-04-05.html".toList,
      "http://site/news/1234-2020-01-02-03-04-05.html?tmpl=component".toList⟩ =
      (some [60, 104, 116, 109, 108, 62], some samplePage, none) ∧
    sampleLib.ElementsByTag (some samplePage) "title".toList =
      [elem "title" [] [textNode " Markets today "]] ∧
    sampleLib.ElementsByTagAndId samplePage "div".toList "contentDiv".toList =
      [elem "div" [("id", "contentDiv")] [elem "p" [] [textNode "Hello"]]] ∧
    sampleLib.parseTime "2020-01-02-03-04-05".toList = .ok (1577934245 * second) ∧
    1577934245 * second < sampleNow - 7 * 86400 * second ∧
    sampleLib.AddDate sampleNow 0 0 (-3) = sampleNow - 3 * 86400 * second ∧
    fetchArticle sampleLib sampleNow sampleNow (NewArticle sampleLib)
      "http://site/news/1234-2020-01-02-03-04-05.html?tmpl=component".toList =
      .ok (none, some .ErrTimeOverDays) ∧
    (fetchArticle sampleLib (1577934245 * second) (1577934245 * second) (NewArticle sampleLib)
      "http://site/news/1234-2020-01-02-03-04-05.html?tmpl=component".toList).map
        (fun r => (r.1.map (fun art => (art.Title, art.UpdateTime)), r.2)) =
      .ok (some ("Markets today".toList, some ⟨1577934245, 0⟩), none) := by
  decide!

/-- On the path of the invalid header `fetchArticle` returns an article and no error; the
title of the article is the path of the URL, and its id is the id the receiver had before the
call, whatever the URL. -/
theorem fetchArticle_degraded_id (L : Lib) (now₀ now₁ : Time) (a : Article) (rawurl : Str)
    (u : URL) (raw : Option (List Nat)) (doc : Option Node) (err : GoError)
    (hparse : L.urlParse rawurl = .ok u)
    (hfetch : L.GetRawAndDoc u = (raw, doc, some err))
    (hheader : Contains err.Error "invalid header".toList = true) :
    ∃ art, fetchArticle L now₀ now₁ a rawurl = .ok (some art, none) ∧
      art.Id = a.Id ∧ art.Title = u.Path := by
  simp only [fetchArticle, hparse, hfetch, hheader, if_true, fmtContent, urlString, bind,
    Except.bind, pure, Except.pure]
  exact ⟨_, rfl, rfl, rfl⟩

/-- The theorem `fetchArticle_degraded_id` applies to the URL `http://site/broken`, for which
the sample fetch reports an invalid header. -/
theorem fetchArticle_degraded_id_witness :
    ∃ art, fetchArticle sampleLib sampleNow sampleNow (NewArticle sampleLib)
        "http://site/broken".toList = .ok (some art, none) ∧
      art.Id = (NewArticle sampleLib).Id ∧ art.Title = "/broken".toList :=
  fetchArticle_degraded_id sampleLib sampleNow sampleNow (NewArticle sampleLib)
    "http://site/broken".toList ⟨"/broken".toList, "http://site/broken".toList⟩ none none
    (.lib "Get \"http://site/broken\": net/http: invalid header field value".toList)
    (by decide!) (by decide!) (by decide!)

/-- C8 at the failing input. The fetch of `http://site/broken` reports an invalid header;
`fetchArticle`, called on a fresh article, returns an article and no error, and the id of
that article is the empty text, not the hex MD5 `745544e73725d2f12198d97b41ea97cb` of the
URL. -/
theorem fetchArticle_degraded_has_no_id :
    fetchArticle sampleLib sampleNow sampleNow (NewArticle sampleLib)
      "http://site/broken".toList =
      .ok (some
        { Id := [], Title := "/broken".toList,
          Content := ("# /broken\n\nLastUpdate: 2020-01-10T08:00:00+08:00 @ " ++
            "[Nikkei](/list/?v=Nikkei): [cn.nikkei.com](http://cn.nikkei.com)\n\n---\n\n\n" ++
            "????????????[http://site/broken](http://site/broken)").toList,
          WebsiteId := "e3796f3673543a69c1e9ccd90176fd21".toList,
          WebsiteDomain := "cn.nikkei.com".toList, WebsiteTitle := "Nikkei".toList,
          UpdateTime := some ⟨1578614400, 0⟩,
          U := some ⟨"/broken".toList, "http://site/broken".toList⟩,
          raw := none, doc := none }, none) ∧
    sampleLib.md5hex "http://site/broken".toList = "745544e73725d2f12198d97b41ea97cb".toList := by
  decide!

/-- Where the fetch reports no error, an article that `fetchArticle` returns has the hex MD5
of the raw URL for id, and comes with no error. -/
theorem fetchArticle_id_of_fetch (L : Lib) (now₀ now₁ : Time) (a : Article) (rawurl : Str)
    (u : URL) (raw : Option (List Nat)) (doc : Option Node) (art : Article)
    (e : Option GoError)
    (hparse : L.urlParse rawurl = .ok u)
    (hfetch : L.GetRawAndDoc u = (raw, doc, none))
    (hret : fetchArticle L now₀ now₁ a rawurl = .ok (some art, e)) :
    art.Id = L.md5hex rawurl ∧ e = none := by
  simp only [fetchArticle, hparse, hfetch, bind, Except.bind, pure, Except.pure] at hret
  repeat (any_goals (split at hret))
  all_goals cases hret
  exact ⟨rfl, rfl⟩

/-- The theorem on the id applies to the sample article URL fetched at its publish time: the
article returned has the hex MD5 of the URL for id. -/
theorem fetchArticle_id_of_fetch_witness :
    ∃ art, fetchArticle sampleLib (1577934245 * second) (1577934245 * second)
        (NewArticle sampleLib)
        "http://site/news/1234-2020-01-02-03-04-05.html?tmpl=component".toList =
        .ok (some art, none) ∧
      art.Id = sampleLib.md5hex
        "http://site/news/1234-2020-01-02-03-04-05.html?tmpl=component".toList ∧
      art.Id = "5efec68cbfe4e94536f91b278c4b068e".toList :=
  ⟨builtArticle,
    by decide!,
    (fetchArticle_id_of_fetch sampleLib (1577934245 * second) (1577934245 * second)
      (NewArticle sampleLib)
      "http://site/news/1234-2020-01-02-03-04-05.html?tmpl=component".toList
      ⟨"/news/1234-2020-01-02-03-04-05.html".toList,
        "http://site/news/1234-2020-01-02-03-04-05.html?tmpl=component".toList⟩
      (some [60, 104, 116, 109, 108, 62]) (some samplePage) _ none
      (by decide!) (by decide!) (by decide!)).1,
    by decide!⟩

end Fetcher
